import Mathlib

/-!
Verification development for the IntelTracker competitive-monitoring agent
(`IntelTracker/agent.py`).  Python strings are modelled as lists of
characters (`Str`), which matches Python's character-indexed slicing
(`s[:n]`, `len`, concatenation).  Machine-level details that no claim
depends on (wall-clock timestamps, logging) are modelled as inert data.
-/

namespace IntelTracker

/-- Python `str` modelled as a list of characters. -/
abbrev Str := List Char

/-- `Update` dataclass (`agent.py`, lines 122-130).  The `detected_at`
field is a wall-clock timestamp (`datetime.now()`); it is modelled as a
default-empty string since no studied operation reads it. -/
structure Update where
  title : Str
  content : Str
  sourceType : Str
  url : Str
  date : Option Str := none
  impact : Str := "Medium".data
  detectedAt : Str := []
deriving DecidableEq, Repr

/-- The fingerprint computed by `_filter_new_updates` / `_update_cache`
(`agent.py`, lines 1239-1241 and 1252-1254):
`hashlib.md5(f"{update.title}{update.content[:100]}".encode()).hexdigest()`.
The MD5 digest is a fixed deterministic function of its input bytes; it is
modelled by its input string `title ++ content[:100]` (equal inputs give
equal digests, and the digest carries no further observable structure). -/
def updateHash (u : Update) : Str :=
  u.title ++ u.content.take 100

/-- `MonitoringEngine._filter_new_updates` (`agent.py`, lines 1231-1246):
an update is new iff its fingerprint is absent from the cached fingerprint
set of the competitor; new updates are returned in input order. -/
def filterNewUpdates (cached : List Str) (updates : List Update) : List Update :=
  updates.filter (fun u => decide (updateHash u ∉ cached))

/-- Fingerprint list committed by `MonitoringEngine._update_cache`
(`agent.py`, lines 1248-1259): `update_hashes[:100]`, i.e. the *first*
100 fingerprints of the candidates processed this cycle. -/
def updateCacheFor (updates : List Update) : List Str :=
  (updates.map updateHash).take 100

/-- The cache key `f"competitor_{competitor_name}"` (`agent.py`,
lines 1234 and 1250). -/
def cacheKey (name : Str) : Str :=
  "competitor_".data ++ name

/-- The persisted cache dictionary (`content_cache.json`), modelled as an
association list in which assignment prepends a binding and lookup takes
the first binding (`dictGet`). -/
abbrev CacheStore := List (Str × List Str)

/-- Python `dict.get(key, [])` over the association-list model. -/
def dictGet (cache : CacheStore) (key : Str) : List Str :=
  match cache with
  | [] => []
  | (k, v) :: rest => if key = k then v else dictGet rest key

/-- Python `self.cache[cache_key] = update_hashes[:100]` (`agent.py`,
line 1258), modelled as a shadowing prepend. -/
def updateCacheStore (cache : CacheStore) (name : Str) (updates : List Update) : CacheStore :=
  (cacheKey name, updateCacheFor updates) :: cache

/-- One filter-and-record cycle of `MonitoringEngine.monitor_competitor`
(`agent.py`, lines 1183-1229) restricted to its cache behaviour:
no candidates → return early with the cache unchanged (line 1183);
no new candidates → return early with the cache unchanged (line 1192);
otherwise return the new updates and commit `_update_cache` over *all*
candidates processed this cycle (line 1221).  The analysis step between
filtering and committing always succeeds (see `analyzeUpdates`), so the
commit is reached whenever new updates exist. -/
def monitorCycle (cache : CacheStore) (name : Str) (updates : List Update) :
    List Update × CacheStore :=
  if updates = [] then ([], cache)
  else
    let news := filterNewUpdates (dictGet cache (cacheKey name)) updates
    if news = [] then ([], cache)
    else (news, updateCacheStore cache name updates)

/-- Convenience constructor used only by concrete test inputs. -/
def mkUpdate (t c : Str) : Update :=
  { title := t, content := c, sourceType := "rss".data, url := [] }

/-- Concrete batch of 101 candidate updates with pairwise distinct
fingerprints (titles are the decimal numerals 0..100). -/
def ex101 : List Update :=
  (List.range 101).map (fun i => mkUpdate (Nat.repr i).data [])

/-- Concrete competitor name for test inputs. -/
def exName : Str := "acme".data

/-- `Analysis` dataclass (`agent.py`, lines 132-142).  The float
`confidence_score` is modelled as a rational; no studied operation
computes with it. -/
structure Analysis where
  summary : Str
  keyFeatures : List Str
  impact : Str
  action : Str
  competitorName : Str
  threatLevel : Str := "Medium".data
  opportunities : List Str := []
  strategicImplications : Option Str := none
  confidenceScore : ℚ := 4 / 5
deriving DecidableEq, Repr

/-- History entry appended by `TrendAnalyzer.record_finding` (`agent.py`,
lines 970-976). -/
structure HistoryEntry where
  timestamp : Str
  impact : Str
  threatLevel : Str
  summary : Str
  keyFeatures : List Str
deriving DecidableEq, Repr

/-- Per-competitor trend record (`agent.py`, lines 963-968): the counter
dictionaries are modelled as association lists. -/
structure TrendRecord where
  history : List HistoryEntry := []
  impactCounts : List (Str × Nat) := []
  featureMentions : List (Str × Nat) := []
deriving DecidableEq, Repr

/-- `defaultdict(int)` increment `d[k] += 1`: a missing key is created
with value 0 and then incremented. -/
def bump (m : List (Str × Nat)) (key : Str) : List (Str × Nat) :=
  match m with
  | [] => [(key, 1)]
  | (k, v) :: rest => if k = key then (k, v + 1) :: rest else (k, v) :: bump rest key

/-- Plain-`dict` increment `d[k] += 1`: a missing key raises `KeyError`,
modelled as `none`. -/
def bumpPlain (m : List (Str × Nat)) (key : Str) : Option (List (Str × Nat)) :=
  match m with
  | [] => none
  | (k, v) :: rest =>
    if k = key then some ((k, v + 1) :: rest)
    else (bumpPlain rest key).map (fun r => (k, v) :: r)

/-- Python `str.lower()`. -/
def pyLower (s : Str) : Str := s.map Char.toLower

/-- Python no-argument `str.split()`: split on whitespace runs, dropping
empty pieces. -/
def pySplitWS (s : Str) : List Str :=
  (s.splitOnP (fun c => c.isWhitespace)).filter (fun w => decide (w ≠ []))

/-- The stopword list of `record_finding` (`agent.py`, line 985). -/
def stopWords : List Str :=
  ["feature".data, "update".data, "release".data]

/-- The term set extracted from one feature string (`agent.py`,
lines 983-985): `set(word.lower() for word in feature.split() if
len(word) > 4 and word.lower() not in [...])`.  Python's set iteration
order is unspecified; first-occurrence order (`dedup`) is used, which
fixes only the association-list layout, not the counts. -/
def featureTerms (feature : Str) : List Str :=
  (((pySplitWS feature).filter
      (fun w => decide (4 < w.length ∧ pyLower w ∉ stopWords))).map pyLower).dedup

/-- Lookup of a competitor's trend record (`competitor_name in trends`). -/
def trendFind (trends : List (Str × TrendRecord)) (name : Str) : Option TrendRecord :=
  match trends with
  | [] => none
  | (k, v) :: rest => if name = k then some v else trendFind rest name

/-- Get-or-create of `record_finding` (`agent.py`, lines 963-968): a
missing competitor starts from the fresh empty record. -/
def trendGet (trends : List (Str × TrendRecord)) (name : Str) : TrendRecord :=
  (trendFind trends name).getD {}

/-- The history trim of `record_finding` (`agent.py`, lines 990-991):
`history[-50:]` once the length exceeds 50. -/
def trimHistory (hist : List HistoryEntry) : List HistoryEntry :=
  if 50 < hist.length then hist.drop (hist.length - 50) else hist

/-- The entry appended by `record_finding` (`agent.py`, lines 970-976);
the wall-clock timestamp is passed in. -/
def newHistoryEntry (ts : Str) (a : Analysis) : HistoryEntry :=
  { timestamp := ts, impact := a.impact, threatLevel := a.threatLevel,
    summary := a.summary, keyFeatures := a.keyFeatures }

/-- One `record_finding` mutation under the `defaultdict` semantics that
the creation branch of the code sets up (`agent.py`, lines 963-993):
append the entry, auto-creating counter increments, then trim the
history.  The actual code only has this behaviour on the first call per
competitor — see `recordFindingPersisted`. -/
def intendedStep (cur : TrendRecord) (ts : Str) (a : Analysis) : TrendRecord :=
  { history := trimHistory (cur.history ++ [newHistoryEntry ts a]),
    impactCounts := bump cur.impactCounts a.impact,
    featureMentions :=
      a.keyFeatures.foldl (fun m f => (featureTerms f).foldl bump m) cur.featureMentions }

/-- `record_finding` under the intended auto-creating counter semantics;
the store assignment is modelled as a shadowing prepend. -/
def recordFindingIntended (trends : List (Str × TrendRecord)) (name ts : Str)
    (a : Analysis) : List (Str × TrendRecord) :=
  (name, intendedStep (trendGet trends name) ts a) :: trends

/-- `record_finding` as the code actually executes it (`agent.py`,
lines 958-993): every call begins with `load_trends()`, so for an
existing competitor `impact_counts` and `feature_mentions` are plain
dicts restored from JSON (the `defaultdict` wrapper does not survive the
round-trip) and `d[k] += 1` on a missing key raises `KeyError` —
modelled as `none`; the crashing call leaves the persisted store
unchanged.  Only a newly created competitor gets fresh `defaultdict`s.
Python raises at the first missing key; since every increment is
attempted, the call crashes iff any needed key is missing, independent of
iteration order. -/
def recordFindingPersisted (trends : List (Str × TrendRecord)) (name ts : Str)
    (a : Analysis) : Option (List (Str × TrendRecord)) :=
  match trendFind trends name with
  | none => some (recordFindingIntended trends name ts a)
  | some cur =>
    match bumpPlain cur.impactCounts a.impact with
    | none => none
    | some counts =>
      (a.keyFeatures.foldlM (fun m f => (featureTerms f).foldlM bumpPlain m)
          cur.featureMentions).map
        (fun feats =>
          (name, { history := trimHistory (cur.history ++ [newHistoryEntry ts a]),
                   impactCounts := counts, featureMentions := feats }) :: trends)

/-- Total of an association-list counter map. -/
def sumVals (m : List (Str × Nat)) : Nat :=
  (m.map Prod.snd).sum

/-- Concrete analysis with impact High and no features. -/
def exHighAnalysis : Analysis :=
  { summary := [], keyFeatures := [], impact := "High".data, action := [],
    competitorName := exName }

/-- Concrete analysis with impact Low and no features. -/
def exLowAnalysis : Analysis :=
  { exHighAnalysis with impact := "Low".data }

/-- The persisted trend store after one successful `record_finding` call
with `exHighAnalysis`. -/
def exTrendsAfterFirst : List (Str × TrendRecord) :=
  (recordFindingPersisted [] exName [] exHighAnalysis).getD []

/-- Ordinal impact scores of `get_competitor_trends` (`agent.py`,
lines 1013-1018): `impact_scores.get(entry['impact'], 2)`. -/
def impactScore (s : Str) : ℚ :=
  if s = "Critical".data then 4
  else if s = "High".data then 3
  else if s = "Medium".data then 2
  else if s = "Low".data then 1
  else 2

/-- The activity-trend computation of `get_competitor_trends`
(`agent.py`, lines 1021-1028).  `recent = history[-10:]` and
`older = history[-20:-10]`; under the guard `len(history) >= 20` the
Python slice `[-20:-10]` equals `drop (length - 20)` then `take 10`. -/
def activityTrendOf (history : List HistoryEntry) : Str :=
  if 20 ≤ history.length then
    if ((history.drop (history.length - 20)).take 10).length <
        (history.drop (history.length - 10)).length then "increasing".data
    else if (history.drop (history.length - 10)).length =
        ((history.drop (history.length - 20)).take 10).length then "stable".data
    else "decreasing".data
  else "insufficient data".data

/-- The statistics dictionary returned by `get_competitor_trends`
(`agent.py`, lines 1047-1057).  The `top_features` and `recent_focus`
rankings (count-sorted term lists) are omitted from the model: no studied
claim mentions them and they depend only on data modelled elsewhere
(`featureMentions`, recent `keyFeatures`). -/
structure TrendStats where
  totalUpdates : Nat
  recentActivity : Nat
  activityTrend : Str
  averageImpact : ℚ
  impactDistribution : List (Str × Nat)
  firstSeen : Option Str
  lastSeen : Option Str
deriving DecidableEq, Repr

/-- `TrendAnalyzer.get_competitor_trends` (`agent.py`, lines 995-1057):
a missing competitor or an empty history returns the
`{'error': 'No historical data'}` dictionary, modelled as `none`;
otherwise the statistics are computed from the stored record. -/
def getCompetitorTrends (trends : List (Str × TrendRecord)) (name : Str) :
    Option TrendStats :=
  match trendFind trends name with
  | none => none
  | some data =>
    if data.history = [] then none
    else
      let history := data.history
      let recent := history.drop (history.length - 10)
      some
        { totalUpdates := history.length,
          recentActivity := recent.length,
          activityTrend := activityTrendOf history,
          averageImpact := ((recent.map (fun e => impactScore e.impact)).sum) / recent.length,
          impactDistribution := data.impactCounts,
          firstSeen := history.head?.map (fun e => e.timestamp),
          lastSeen := history.getLast?.map (fun e => e.timestamp) }

/-- Concrete one-entry history record for test inputs. -/
def exRecord : TrendRecord :=
  { history := [{ timestamp := [], impact := "High".data, threatLevel := "High".data,
                  summary := [], keyFeatures := [] }],
    impactCounts := [("High".data, 1)], featureMentions := [] }

/-- Concrete trend store holding `exRecord` under `exName`. -/
def exTrendStore : List (Str × TrendRecord) := [(exName, exRecord)]

/-- Python substring test `pat in s`. -/
def pyContains (pat : Str) : Str → Bool
  | [] => pat.isEmpty
  | c :: t => pat.isPrefixOf (c :: t) || pyContains pat t

/-- Recursive worker for `pyReplace` on a non-empty pattern: replace
every occurrence, scanning left to right. -/
def pyReplaceAux (pat new : Str) : Str → Str
  | [] => []
  | c :: t =>
    if pat ≠ [] ∧ pat.isPrefixOf (c :: t) = true then
      new ++ pyReplaceAux pat new (t.drop (pat.length - 1))
    else c :: pyReplaceAux pat new t
termination_by s => s.length
decreasing_by
  · simp only [List.length_drop, List.length_cons]
    omega
  · simp only [List.length_cons]
    omega

/-- Python `s.replace(pat, new)`: all occurrences replaced; an empty
pattern inserts `new` before every character and at the end. -/
def pyReplace (pat new s : Str) : Str :=
  if pat = [] then new ++ s.flatMap (fun c => c :: new)
  else pyReplaceAux pat new s

/-- Python `str.strip()`: remove leading and trailing whitespace. -/
def pyStrip (s : Str) : Str :=
  ((s.dropWhile Char.isWhitespace).reverse.dropWhile Char.isWhitespace).reverse

/-- A feed entry as observed through `feedparser` (`agent.py`,
lines 387-399): `entry.get('title')`, the `summary`/`description` text
after BeautifulSoup tag stripping (empty when both fields are absent or
strip to nothing — either way `content` falls back to the title),
`entry.get('link')` and `entry.get('published')`. -/
structure FeedEntry where
  title : Option Str
  summaryText : Str
  link : Option Str
  published : Option Str
deriving DecidableEq, Repr

/-- `ContentExtractor.extract_from_rss` (`agent.py`, lines 378-407).
The `feedparser.parse`/network outcome is the input: `Except.error`
models any raised exception, caught by the blanket handler that returns
`[]` (lines 405-407); an entry-less feed returns `[]` (lines 383-384);
otherwise the first 10 entries are converted, the feed title taken
untruncated and the summary truncated to 800 characters. -/
def extract_from_rss (fetched : Except Str (List FeedEntry)) (url : Str) : List Update :=
  match fetched with
  | .error _ => []
  | .ok entries =>
    if entries = [] then []
    else
      (entries.take 10).map (fun e =>
        let title := e.title.getD ("Untitled".data)
        { title := title,
          content := if e.summaryText ≠ [] then e.summaryText.take 800 else title,
          sourceType := "rss".data,
          url := e.link.getD url,
          date := e.published })

/-- A candidate container element as observed through BeautifulSoup
(`_extract_from_container`, `agent.py`, lines 610-654): the text of the
first `h1..h6`/`a`/`strong`/`b` descendant (if any), the container's own
stripped text, the resolved date query (`time`/date-classed `span`
chain, lines 626-634), and the stripped texts of the
`find_all(['p','li','div','span'], limit=10)` result. -/
structure Container where
  titleElemText : Option Str
  fullText : Str
  dateText : Option Str
  innerTexts : List Str
deriving DecidableEq, Repr

/-- The container title derivation (`agent.py`, lines 613-621): the
title element's text when one exists, else the first sentence of the
container text (which must have at least 10 characters), truncated to
250. -/
def containerTitle (c : Container) : Option Str :=
  match c.titleElemText with
  | none =>
    if c.fullText.length < 10 then none
    else some (((c.fullText.splitOn '.').headD []).take 250)
  | some t => some t

/-- The container content derivation (`agent.py`, lines 637-643): the
long (>15 chars) texts of up to 10 inner elements, joined and truncated
to 1200. -/
def containerContent (c : Container) : Str :=
  (List.intercalate (" ".data)
    ((c.innerTexts.take 10).filter (fun t => 15 < t.length))).take 1200

/-- `ContentExtractor._extract_from_container` (`agent.py`,
lines 610-654). -/
def extract_from_container (c : Container) (url : Str) : Option Update :=
  match containerTitle c with
  | none => none
  | some title =>
    if title = [] ∨ title.length < 5 then none
    else
      some { title := title.take 250,
             content := if containerContent c = [] ∨ (containerContent c).length < 20
               then title else containerContent c,
             sourceType := "website".data, url := url, date := c.dateText }

/-- A heading element as observed through BeautifulSoup
(`_extract_from_heading`, `agent.py`, lines 656-689): its stripped text,
the parent's `time` element (datetime attribute or text) when present,
and the stripped texts of
`find_next_siblings(['p','ul','div','span'], limit=6)`. -/
structure Heading where
  text : Str
  parentTimeText : Option Str
  siblingTexts : List Str
deriving DecidableEq, Repr

/-- The heading content derivation (`agent.py`, lines 671-677): the
long (>15 chars) texts of up to 6 following siblings, joined and
truncated to 1200. -/
def headingContent (h : Heading) : Str :=
  (List.intercalate (" ".data)
    ((h.siblingTexts.take 6).filter (fun t => 15 < t.length))).take 1200

/-- `ContentExtractor._extract_from_heading` (`agent.py`,
lines 656-689). -/
def extract_from_heading (h : Heading) (url : Str) : Option Update :=
  if h.text = [] ∨ h.text.length < 5 then none
  else if headingContent h = [] ∧ h.text.length < 20 then none
  else
    some { title := h.text.take 250,
           content := if headingContent h = [] then h.text else headingContent h,
           sourceType := "website".data, url := url, date := h.parentTimeText }

/-- A list item as observed through BeautifulSoup
(`_extract_from_list_item`, `agent.py`, lines 691-720): its stripped
text and the stripped text of the first
`strong`/`b`/`h1..h6`/`a` descendant when one exists. -/
structure LItem where
  text : Str
  headingText : Option Str
deriving DecidableEq, Repr

/-- The list-item title/content derivation (`agent.py`,
lines 698-713): when an embedded title element exists its text becomes
the title and the remaining text the content; otherwise the first
sentence (if longer than 10 characters) or the first 100 characters. -/
def liTitleContent (li : LItem) : Str × Str :=
  match li.headingText with
  | some t =>
    let c := pyStrip (pyReplace t [] li.text)
    (t, if c = [] then t else c)
  | none =>
    let sentences := li.text.splitOn '.'
    if sentences ≠ [] ∧ 10 < (sentences.headD []).length then
      ((sentences.headD []).take 250, li.text)
    else (li.text.take 100, li.text)

/-- `ContentExtractor._extract_from_list_item` (`agent.py`,
lines 691-720). -/
def extract_from_list_item (li : LItem) (url : Str) : Option Update :=
  if li.text = [] ∨ li.text.length < 10 then none
  else
    some { title := (liTitleContent li).1.take 250,
           content := (liTitleContent li).2.take 1200,
           sourceType := "website".data, url := url }

/-- A page-wide heading for the aggressive fallback
(`_aggressive_extraction`, `agent.py`, lines 542-565): stripped text,
whether the element has a parent (line 548 guards sibling collection on
it), and the stripped texts of
`find_next_siblings(['p','div','span'], limit=3)`. -/
structure AggHeading where
  text : Str
  hasParent : Bool
  siblingTexts : List Str
deriving DecidableEq, Repr

/-- A paragraph for the aggressive fallback (`agent.py`, lines 567-585):
the stripped text of the first `strong`/`b`/`em` child when present, and
the paragraph's own stripped text. -/
structure AggPara where
  strongText : Option Str
  fullText : Str
deriving DecidableEq, Repr

/-- A `div` for the aggressive fallback (`agent.py`, lines 587-605): its
space-separated stripped text and whether it contains nested
`div`/`section` children (line 592). -/
structure AggDiv where
  text : Str
  hasNestedBlock : Bool
deriving DecidableEq, Repr

/-- A fetched page as observed through the BeautifulSoup queries of
`_extract_structured_content` and `_aggressive_extraction` after
`_clean_soup`: `containers` is the identity-deduplicated
`unique_containers` list of class/id pattern matches inside the
main-content root (`agent.py`, lines 479-513); `headings` the
`find_all(['h1'..'h4'])` result in that root; `listItems` the items of
each `ul`/`ol`; the `agg*` fields the page-wide query results used by
the aggressive fallback.  The per-call `limit=` caps are applied in the
extraction functions. -/
structure Page where
  containers : List Container
  headings : List Heading
  listItems : List (List LItem)
  aggHeadings : List AggHeading
  aggParagraphs : List AggPara
  aggDivs : List AggDiv
deriving DecidableEq, Repr

/-- The within-pass title deduplication used by both extraction passes
(`agent.py`, lines 515-533, 564, 584, 604): a candidate is appended only
when produced and when no already-collected update carries the same
title. -/
def dedupAppend (updates : List Update) (u? : Option Update) : List Update :=
  match u? with
  | none => updates
  | some u => if updates.any (fun v => v.title = u.title) then updates else updates ++ [u]

/-- `ContentExtractor._extract_structured_content` (`agent.py`,
lines 466-535): container tier over the first 20 unique containers; the
heading tier (25 headings) only when fewer than 3 results so far; the
list tier (10 lists, 15 items each) only when fewer than 2; output
capped at 20. -/
def extract_structured_content (p : Page) (url : Str) : List Update :=
  let updates := (p.containers.take 20).foldl
    (fun acc c => dedupAppend acc (extract_from_container c url)) []
  let updates := if updates.length < 3 then
      (p.headings.take 25).foldl
        (fun acc h => dedupAppend acc (extract_from_heading h url)) updates
    else updates
  let updates := if updates.length < 2 then
      (p.listItems.take 10).foldl
        (fun acc lis => (lis.take 15).foldl
          (fun acc li => dedupAppend acc (extract_from_list_item li url)) acc) updates
    else updates
  updates.take 20

/-- Loop body of the aggressive heading pass (`agent.py`,
lines 543-565): accept headings of 10..300 characters; content is the
long (>15 chars) texts of up to 3 following siblings (collected only
under the parent check of line 548), falling back to the heading text. -/
def aggHeadingStep (url : Str) (acc : List Update) (h : AggHeading) : List Update :=
  if 10 ≤ h.text.length ∧ h.text.length ≤ 300 then
    let parts := if h.hasParent then
        (h.siblingTexts.take 3).filter (fun t => 15 < t.length)
      else []
    let content := if parts = [] then h.text
      else (List.intercalate (" ".data) parts).take 800
    dedupAppend acc (some
      { title := h.text.take 250, content := content,
        sourceType := "website".data, url := url })
  else acc

/-- Loop body of the aggressive paragraph pass (`agent.py`,
lines 569-585): paragraphs whose first bold/italic child has 10..200
characters; content is the paragraph text with the title removed, or the
title itself when nothing remains. -/
def aggParaStep (url : Str) (acc : List Update) (pa : AggPara) : List Update :=
  match pa.strongText with
  | none => acc
  | some t =>
    if 10 ≤ t.length ∧ t.length ≤ 200 then
      let c := pyStrip (pyReplace t [] pa.fullText)
      dedupAppend acc (some
        { title := t.take 250,
          content := (if c = [] then t else c).take 800,
          sourceType := "website".data, url := url })
    else acc

/-- Loop body of the aggressive div pass (`agent.py`, lines 589-605):
leaf divs (no nested `div`/`section`) with 20..500 characters of text,
titled by their first 15 whitespace-separated words. -/
def aggDivStep (url : Str) (acc : List Update) (d : AggDiv) : List Update :=
  if 20 ≤ d.text.length ∧ d.text.length ≤ 500 ∧ ¬ d.hasNestedBlock then
    dedupAppend acc (some
      { title := (List.intercalate (" ".data) ((pySplitWS d.text).take 15)).take 250,
        content := d.text.take 800,
        sourceType := "website".data, url := url })
  else acc

/-- `ContentExtractor._aggressive_extraction` (`agent.py`,
lines 537-608): all headings (30 max); if fewer than 3 results,
paragraphs (30 max); if fewer than 2 results, divs (50 max); capped at
15, same title dedup. -/
def extract_aggressive (p : Page) (url : Str) : List Update :=
  let updates := (p.aggHeadings.take 30).foldl (aggHeadingStep url) []
  let updates := if updates.length < 3 then
      (p.aggParagraphs.take 30).foldl (aggParaStep url) updates
    else updates
  let updates := if updates.length < 2 then
      (p.aggDivs.take 50).foldl (aggDivStep url) updates
    else updates
  updates.take 15

/-- A failed page fetch/parse: the three handlers of
`extract_from_website` (`agent.py`, lines 433-441) catch
`requests.Timeout`, `requests.RequestException` and any other
exception. -/
inductive FetchError where
  | timeout
  | requestError (msg : Str)
  | unexpected (msg : Str)
deriving DecidableEq, Repr

/-- `ContentExtractor.extract_from_website` (`agent.py`, lines 409-441):
any fetch or parse failure returns `[]`; an accessible page runs the
structured waterfall and falls back to the aggressive pass when the
waterfall yields nothing (lines 424-428). -/
def extract_from_website (fetched : Except FetchError Page) (url : Str) : List Update :=
  match fetched with
  | .error _ => []
  | .ok p =>
    let updates := extract_structured_content p url
    if updates = [] then extract_aggressive p url else updates

/-- Keyword lists of `AIAnalyzer._basic_analysis` (`agent.py`,
lines 908-914). -/
def criticalKeywords : List Str :=
  (["acquisition", "acquired", "merger", "funding", "series",
    "million", "billion", "ipo", "partnership with"] : List String).map String.data

/-- High-impact keywords (`agent.py`, lines 910-911). -/
def highKeywords : List Str :=
  (["launch", "launched", "new product", "major update",
    "enterprise", "pricing change", "price", "discount"] : List String).map String.data

/-- Medium-impact keywords (`agent.py`, lines 912-913). -/
def mediumKeywords : List Str :=
  (["feature", "improvement", "update", "release", "beta",
    "preview", "integration", "api"] : List String).map String.data

/-- Low-impact keywords (`agent.py`, line 914). -/
def lowKeywords : List Str :=
  (["bug fix", "patch", "maintenance", "minor"] : List String).map String.data

/-- `' '.join(titles + contents).lower()` over the first five updates
(`agent.py`, lines 903-905). -/
def allTextOf (updates : List Update) : Str :=
  pyLower (List.intercalate (" ".data)
    ((updates.take 5).map (fun u => u.title) ++ (updates.take 5).map (fun u => u.content)))

/-- `AIAnalyzer._basic_analysis` (`agent.py`, lines 888-952): the
rule-based fallback, total on every input; an empty update list yields
the Low-impact "no recent updates" analysis. -/
def basic_analysis (name cat : Str) (updates : List Update) : Analysis :=
  if updates = [] then
    { summary := name ++ " has no recent updates".data,
      keyFeatures := [],
      impact := "Low".data,
      threatLevel := "Low".data,
      action := "Continue monitoring for future updates".data,
      competitorName := name,
      confidenceScore := 9 / 10 }
  else
    let titles := (updates.take 5).map (fun u => u.title)
    let allText := allTextOf updates
    let it : Str × Str :=
      if criticalKeywords.any (fun kw => pyContains kw allText) then
        ("Critical".data, "High".data)
      else if highKeywords.any (fun kw => pyContains kw allText) then
        ("High".data, "Medium".data)
      else if mediumKeywords.any (fun kw => pyContains kw allText) then
        ("Medium".data, "Low".data)
      else if lowKeywords.any (fun kw => pyContains kw allText) then
        ("Low".data, "Low".data)
      else ("Medium".data, "Low".data)
    { summary := if titles ≠ [] then name ++ " released: ".data ++ titles.headD []
        else name ++ " updated".data,
      keyFeatures := titles.take 5,
      impact := it.1,
      threatLevel := it.2,
      opportunities :=
        (["Monitor their approach and user reception",
          "Identify gaps in our own offering",
          "Consider if similar features would benefit our users"] : List String).map String.data,
      strategicImplications :=
        some (name ++ " is actively evolving their ".data ++ cat ++ " offering".data),
      action := "Review ".data ++ name ++ "\x27s updates and assess competitive positioning".data,
      confidenceScore := 3 / 5,
      competitorName := name }

/-- `AIAnalyzer.analyze_updates` (`agent.py`, lines 750-759):
`geminiAvailable` models `GEMINI_AVAILABLE` and `geminiResult` the
outcome of the external `_analyze_with_gemini` call (`none` on failure);
whenever the Gemini path is skipped or yields nothing, the rule-based
`_basic_analysis` result is returned, so the function never returns
`None` — the orchestrator's `if not analysis` branch (`agent.py`,
lines 1207-1209) is unreachable in this configuration. -/
def analyze_updates (geminiAvailable : Bool) (geminiResult : Option Analysis)
    (name cat : Str) (updates : List Update) : Option Analysis :=
  if geminiAvailable = true ∧ updates ≠ [] then
    match geminiResult with
    | some r => some r
    | none => some (basic_analysis name cat updates)
  else some (basic_analysis name cat updates)

/-- One tracked competitor as seen by `monitor_all` (`agent.py`,
lines 1270-1292): name, the `enabled` flag, and the outcome of its
`monitor_competitor` call — `Except.error` models a raised exception,
`Except.ok` an optional finding (represented by a label). -/
structure CompetitorRun where
  name : Str
  enabled : Bool
  outcome : Except Str (Option Str)

/-- Observable events of the `monitor_all` loop: a competitor check and
the `time.sleep(rate_limit_seconds)` delay. -/
inductive BatchEvent where
  | check (name : Str)
  | delay
deriving DecidableEq, Repr

/-- Whether a competitor's check completed without raising. -/
def isOkOutcome : Except Str (Option Str) → Bool
  | .ok _ => true
  | .error _ => false

/-- The loop body of `monitor_all` (`agent.py`, lines 1278-1291) over
the enabled competitors, carrying the 1-based index `i` and the total
`n`: the per-competitor `try` runs the check, collects a truthy result,
and sleeps when `i < n`; a raised exception jumps to the handler,
skipping both the collection and the sleep. -/
def monitorAllGo (i n : Nat) : List CompetitorRun → List Str × List BatchEvent
  | [] => ([], [])
  | c :: rest =>
    let r := monitorAllGo (i + 1) n rest
    match c.outcome with
    | .error _ => (r.1, .check c.name :: r.2)
    | .ok f? =>
      ((match f? with | some f => f :: r.1 | none => r.1),
       .check c.name :: ((if i < n then [.delay] else []) ++ r.2))

/-- `MonitoringEngine.monitor_all` (`agent.py`, lines 1270-1292):
filter to the enabled competitors, then run the indexed loop. -/
def monitor_all (comps : List CompetitorRun) : List Str × List BatchEvent :=
  monitorAllGo 1 (comps.filter (fun c => c.enabled)).length
    (comps.filter (fun c => c.enabled))

/-- Closed-form description of the `monitor_all` event trace: each
competitor is checked; a delay follows exactly when the check completed
without raising and another competitor follows. -/
def batchTraceSpec : List CompetitorRun → List BatchEvent
  | [] => []
  | c :: rest =>
    .check c.name ::
      (match rest with
       | [] => []
       | _ :: _ => (if isOkOutcome c.outcome then [.delay] else []) ++ batchTraceSpec rest)

/-- The competitor name of a check event. -/
def checkName : BatchEvent → Option Str
  | .check n => some n
  | .delay => none

/-- Concrete batch: two enabled competitors, the first check raising. -/
def exBatch : List CompetitorRun :=
  [{ name := "a".data, enabled := true, outcome := .error ("boom".data) },
   { name := "b".data, enabled := true, outcome := .ok none }]

/-- Concrete container with a title element. -/
def exContainer : Container :=
  { titleElemText := some ("Release notes".data), fullText := "Release notes".data,
    dateText := none, innerTexts := [] }

/-- Concrete heading with no content siblings but a long title. -/
def exHeading : Heading :=
  { text := "Release notes for March".data, parentTimeText := none, siblingTexts := [] }

/-- Concrete list item whose embedded bold element has empty text. -/
def exLi : LItem :=
  { text := "abcdefghijk".data, headingText := some [] }

/-- Concrete page that only the aggressive heading pass can extract. -/
def exAggPage : Page :=
  { containers := [], headings := [], listItems := [],
    aggHeadings := [{ text := "Something long enough".data, hasParent := true,
                      siblingTexts := [] }],
    aggParagraphs := [], aggDivs := [] }

/-- The update produced from `exContainer`. -/
def exContainerU : Update :=
  (extract_from_container exContainer ("u".data)).getD (mkUpdate [] [])

/-- The update produced from `exHeading`. -/
def exHeadingU : Update :=
  (extract_from_heading exHeading ("u".data)).getD (mkUpdate [] [])

/-- The update produced from `exLi`. -/
def exLiU : Update :=
  (extract_from_list_item exLi ("u".data)).getD (mkUpdate [] [])

/-- The update produced from `exAggPage` by the aggressive pass. -/
def exAggU : Update :=
  (extract_aggressive exAggPage ("u".data)).headD (mkUpdate [] [])

/-! ## Theorems -/

/-- Helper: filtering against an empty fingerprint set keeps every
candidate. -/
theorem filterNewUpdates_nil (us : List Update) : filterNewUpdates [] us = us := by
  simp [filterNewUpdates]

/-- Helper: when at most 100 candidates are processed, every candidate's
fingerprint is committed, so filtering the same candidates against the
committed set yields nothing. -/
theorem filterNewUpdates_self (us : List Update) (h : us.length ≤ 100) :
    filterNewUpdates (updateCacheFor us) us = [] := by
  have htake : (us.map updateHash).take 100 = us.map updateHash :=
    List.take_of_length_le (by simpa using h)
  simp only [filterNewUpdates, updateCacheFor, htake]
  rw [List.filter_eq_nil_iff]
  intro u hu
  simp only [decide_eq_true_eq, List.mem_map, not_exists, not_forall, Decidable.not_not]
  exact ⟨u, hu, rfl⟩

/-- C1: the claimed equivalence fails in the backward direction: two
updates whose title/content boundary shifts produce the identical digest
input `"abc"` (hence identical MD5 fingerprints in the source) while their
titles differ. -/
theorem C1_fingerprint_iff_counterexample :
    updateHash (mkUpdate "ab".data "c".data) = updateHash (mkUpdate "a".data "bc".data) ∧
    ¬ ((mkUpdate "ab".data "c".data).title = (mkUpdate "a".data "bc".data).title ∧
       (mkUpdate "ab".data "c".data).content.take 100 =
         (mkUpdate "a".data "bc".data).content.take 100) := by
  decide

/-- C1 (amended): the fingerprint is a deterministic pure function of the
title concatenated with the first 100 characters of the content, so equal
`(title, content[:100])` pairs always yield equal fingerprints; the
converse fails because the digest input does not delimit the boundary
between title and content prefix. -/
theorem C1_fingerprint_deterministic (u₁ u₂ : Update)
    (ht : u₁.title = u₂.title)
    (hc : u₁.content.take 100 = u₂.content.take 100) :
    updateHash u₁ = updateHash u₂ := by
  simp [updateHash, ht, hc]

/-- Witness for C1 (amended) at concrete inputs. -/
theorem C1_fingerprint_deterministic_witness :
    updateHash (mkUpdate "v2".data "dark".data) =
      updateHash { mkUpdate "v2".data "dark".data with url := "u".data } :=
  C1_fingerprint_deterministic _ _ (by decide) (by decide)

/-- C2 counterexample: with 101 candidates of pairwise distinct
fingerprints, the first cycle reports all of them but commits only the
first 100 fingerprints, so the identical second cycle still reports the
101st candidate — the second run is not empty as claimed. -/
theorem C2_idempotence_counterexample :
    (monitorCycle [] exName ex101).1 ≠ [] ∧
    (monitorCycle (monitorCycle [] exName ex101).2 exName ex101).1 ≠ [] := by
  constructor
  · decide
  · decide

/-- C2 (amended): for a non-empty candidate set of at most 100 updates,
starting from an empty cache, the first filter-and-record cycle returns a
non-empty result and the identical second cycle returns the empty result,
because all fingerprints are then cached.  (With more than 100 candidates
the bound-100 cache cannot retain every fingerprint, so the second cycle
re-reports the overflow.) -/
theorem C2_detection_idempotent (name : Str) (updates : List Update)
    (hne : updates ≠ []) (hlen : updates.length ≤ 100) :
    (monitorCycle [] name updates).1 ≠ [] ∧
    (monitorCycle (monitorCycle [] name updates).2 name updates).1 = [] := by
  have h1 : monitorCycle [] name updates = (updates, updateCacheStore [] name updates) := by
    simp [monitorCycle, dictGet, filterNewUpdates_nil, hne]
  refine ⟨by rw [h1]; exact hne, ?_⟩
  rw [h1]
  simp [monitorCycle, updateCacheStore, dictGet, hne, filterNewUpdates_self updates hlen]

/-- Witness for C2 (amended) at a concrete one-update candidate set. -/
theorem C2_detection_idempotent_witness :
    (monitorCycle [] exName [mkUpdate "a".data []]).1 ≠ [] ∧
    (monitorCycle (monitorCycle [] exName [mkUpdate "a".data []]).2 exName
      [mkUpdate "a".data []]).1 = [] :=
  C2_detection_idempotent exName [mkUpdate "a".data []] (by decide) (by decide)

/-- C3: after any sequence of filter-and-record cycles starting from the
empty cache store, every entity's stored fingerprint sequence has length
at most 100 (each commit stores `update_hashes[:100]`). -/
theorem C3_cache_bound (events : List (Str × List Update)) (key : Str) :
    (dictGet (events.foldl (fun c e => (monitorCycle c e.1 e.2).2) []) key).length ≤ 100 := by
  suffices h : ∀ (c : CacheStore),
      (∀ k, (dictGet c k).length ≤ 100) →
      ∀ k, (dictGet (events.foldl (fun c e => (monitorCycle c e.1 e.2).2) c) k).length ≤ 100 by
    exact h [] (fun k => by simp [dictGet]) key
  induction events with
  | nil => intro c hc k; exact hc k
  | cons e rest ih =>
    intro c hc k
    apply ih
    intro k'
    simp only [monitorCycle]
    split
    · exact hc k'
    · split
      · exact hc k'
      · simp only [updateCacheStore, dictGet]
        split
        · simp [updateCacheFor]
        · exact hc k'

/-- C4: evaluation of `_update_cache` at the failing input: with 101
candidates of pairwise distinct fingerprints, the committed set retains
the fingerprint of the *first* (oldest-processed) candidate and evicts
the fingerprint of the *last* (most recent) one — `update_hashes[:100]`
keeps the first 100, contradicting both the claim and the source's own
comment `# Keep last 100 hashes per competitor`. -/
theorem C4_first_hundred_kept :
    updateHash (mkUpdate (Nat.repr 0).data []) ∈ updateCacheFor ex101 ∧
    updateHash (mkUpdate (Nat.repr 100).data []) ∉ updateCacheFor ex101 := by
  constructor
  · decide
  · decide

/-- Helper: a `defaultdict` increment raises the counter total by one. -/
theorem sumVals_bump (m : List (Str × Nat)) (k : Str) :
    sumVals (bump m k) = sumVals m + 1 := by
  induction m with
  | nil => simp [bump, sumVals]
  | cons p rest ih =>
    simp only [bump]
    split
    · simp only [sumVals, List.map_cons, List.sum_cons]
      omega
    · simp only [sumVals, List.map_cons, List.sum_cons] at ih ⊢
      omega

/-- Helper: trimming holds the history at at most 50 entries. -/
theorem trimHistory_length (h : List HistoryEntry) :
    (trimHistory h).length = min h.length 50 := by
  unfold trimHistory
  split
  · rw [List.length_drop]; omega
  · omega

/-- Helper: lookup against a freshly prepended trend binding. -/
theorem trendGet_cons (n : Str) (r : TrendRecord) (t : List (Str × TrendRecord)) (k : Str) :
    trendGet ((n, r) :: t) k = if k = n then r else trendGet t k := by
  by_cases hk : k = n
  · simp [trendGet, trendFind, hk]
  · simp [trendGet, trendFind, hk]

/-- Helper: looking up after one `record_finding` call reads the stepped
record for the recorded competitor and the previous record otherwise. -/
theorem trendGet_record (t : List (Str × TrendRecord)) (n ts : Str) (a : Analysis)
    (k : Str) :
    trendGet (recordFindingIntended t n ts a) k =
      if k = n then intendedStep (trendGet t n) ts a else trendGet t k := by
  rw [recordFindingIntended, trendGet_cons]

/-- Helper: folding `record_finding` (intended `defaultdict` semantics)
over a call sequence adds one to a competitor's counter total per call
naming it and keeps the history within 50 entries. -/
theorem recordIntended_fold (events : List (Str × Str × Analysis)) :
    ∀ (t : List (Str × TrendRecord)) (k : Str),
      sumVals (trendGet (events.foldl
          (fun t e => recordFindingIntended t e.1 e.2.1 e.2.2) t) k).impactCounts =
        sumVals (trendGet t k).impactCounts + events.countP (fun e => decide (e.1 = k)) ∧
      ((trendGet t k).history.length ≤ 50 →
        (trendGet (events.foldl
          (fun t e => recordFindingIntended t e.1 e.2.1 e.2.2) t) k).history.length ≤ 50) := by
  induction events with
  | nil => intro t k; simp
  | cons e rest ih =>
    intro t k
    obtain ⟨hsum, hhist⟩ := ih (recordFindingIntended t e.1 e.2.1 e.2.2) k
    have hrec := trendGet_record t e.1 e.2.1 e.2.2 k
    by_cases hk : k = e.1
    · rw [if_pos hk] at hrec
      have hs1 : sumVals (trendGet (recordFindingIntended t e.1 e.2.1 e.2.2) k).impactCounts
          = sumVals (trendGet t k).impactCounts + 1 := by
        rw [hrec]
        show sumVals (bump (trendGet t e.1).impactCounts e.2.2.impact) = _
        rw [sumVals_bump, hk]
      have hh1 : (trendGet (recordFindingIntended t e.1 e.2.1 e.2.2) k).history.length ≤ 50 := by
        rw [hrec]
        show (trimHistory _).length ≤ 50
        rw [trimHistory_length]
        omega
      have hcount : (e :: rest).countP (fun x => decide (x.1 = k)) =
          rest.countP (fun x => decide (x.1 = k)) + 1 := by
        rw [List.countP_cons]
        simp [hk]
      constructor
      · rw [List.foldl_cons, hsum, hs1, hcount]
        omega
      · intro _
        rw [List.foldl_cons]
        exact hhist hh1
    · rw [if_neg hk] at hrec
      have hcount : (e :: rest).countP (fun x => decide (x.1 = k)) =
          rest.countP (fun x => decide (x.1 = k)) := by
        rw [List.countP_cons]
        have hd : decide (e.1 = k) = false := decide_eq_false (fun h => hk h.symm)
        rw [hd]
        simp
      constructor
      · rw [List.foldl_cons, hsum, hrec, hcount]
      · intro ht
        rw [List.foldl_cons]
        exact hhist (by rw [hrec]; exact ht)

/-- Documentation of the intended behaviour behind C5: under the
auto-creating counter semantics that `record_finding`'s creation branch
sets up, the history stays within 50 entries and the counter total equals
the number of calls for the competitor.  The persisted code path does not
achieve this — see `C5_keyerror_evaluation`. -/
theorem trend_invariants_intended (events : List (Str × Str × Analysis)) (name : Str) :
    (trendGet (events.foldl
        (fun t e => recordFindingIntended t e.1 e.2.1 e.2.2) []) name).history.length ≤ 50 ∧
    sumVals (trendGet (events.foldl
        (fun t e => recordFindingIntended t e.1 e.2.1 e.2.2) []) name).impactCounts =
      events.countP (fun e => decide (e.1 = name)) := by
  obtain ⟨hsum, hhist⟩ := recordIntended_fold events [] name
  constructor
  · exact hhist (by simp [trendGet, trendFind])
  · rw [hsum]
    simp [trendGet, trendFind, sumVals]

/-- C5: evaluation at the failing input.  The first `record()` call for a
competitor succeeds; the identical second call with a different impact
level raises `KeyError` (`none`), because the counter maps loaded back
from JSON are plain dicts, so the persisted totals stay at 1 after 2
calls — the counters do not track the full number of `record()` calls. -/
theorem C5_keyerror_evaluation :
    (recordFindingPersisted [] exName [] exHighAnalysis).isSome = true ∧
    recordFindingPersisted exTrendsAfterFirst exName [] exLowAnalysis = none ∧
    sumVals (trendGet exTrendsAfterFirst exName).impactCounts = 1 ∧
    (trendGet exTrendsAfterFirst exName).history.length = 1 := by
  refine ⟨by decide, by decide, by decide, by decide⟩

/-- Helper: once the history holds at least 20 entries, the two
compared windows `history[-10:]` and `history[-20:-10]` both have exactly
10 entries, so the comparison always lands in the `"stable"` branch;
below 20 entries the code reports `"insufficient data"`. -/
theorem activityTrendOf_eq (h : List HistoryEntry) :
    activityTrendOf h =
      if h.length < 20 then ("insufficient data".data) else ("stable".data) := by
  unfold activityTrendOf
  by_cases h20 : 20 ≤ h.length
  · have hr : (h.drop (h.length - 10)).length = 10 := by
      rw [List.length_drop]; omega
    have ho : ((h.drop (h.length - 20)).take 10).length = 10 := by
      rw [List.length_take, List.length_drop]; omega
    rw [if_pos h20, hr, ho, if_neg (by omega), if_pos rfl, if_neg (by omega)]
  · rw [if_neg h20, if_pos (by omega)]

/-- C6 counterexample: for a missing competitor, and equally for a
competitor whose stored history is empty (0 < 20 entries), `getStats`
returns the error dictionary and carries no `activity_trend` at all, so
the claim's "whenever the history has fewer than 20 entries" fails at
length 0. -/
theorem C6_empty_history_counterexample :
    getCompetitorTrends [] exName = none ∧
    getCompetitorTrends [(exName, {})] exName = none := by
  refine ⟨by decide, by decide⟩

/-- C6 (amended): for a competitor present in the store with a non-empty
history, `getStats` reports `activity_trend = "insufficient data"` when
the history has fewer than 20 entries and `"stable"` otherwise (both
windows always hold exactly 10 entries, so neither `"increasing"` nor
`"decreasing"` is reachable); for a missing competitor or an empty
history it returns the error dictionary instead of statistics. -/
theorem C6_activity_trend (trends : List (Str × TrendRecord)) (name : Str)
    (data : TrendRecord) (hfind : trendFind trends name = some data)
    (hne : data.history ≠ []) :
    (getCompetitorTrends trends name).map TrendStats.activityTrend =
      some (if data.history.length < 20 then ("insufficient data".data)
            else ("stable".data)) := by
  simp only [getCompetitorTrends, hfind]
  rw [if_neg hne]
  show some (activityTrendOf data.history) = _
  rw [activityTrendOf_eq]

/-- Witness for C6 (amended) at a concrete one-entry history. -/
theorem C6_activity_trend_witness :
    (getCompetitorTrends exTrendStore exName).map TrendStats.activityTrend =
      some ("insufficient data".data) := by
  have h := C6_activity_trend exTrendStore exName exRecord (by decide) (by decide)
  rw [h]
  decide

/-- C7: both extraction operations return the empty update list on every
fetch or parse failure — the handlers of `extract_from_rss`
(`agent.py`, lines 405-407) and `extract_from_website` (lines 433-441)
swallow every exception and return `[]`, so no failure propagates to the
caller. -/
theorem C7_extraction_never_throws :
    (∀ (e : Str) (url : Str), extract_from_rss (.error e) url = []) ∧
    (∀ (err : FetchError) (url : Str), extract_from_website (.error err) url = []) :=
  ⟨fun _ _ => rfl, fun _ _ => rfl⟩

/-- C9: the analyzer is total whenever the Gemini path is unavailable or
yields nothing: `analyze_updates` always returns a result (so the
orchestrator's `if not analysis` branch is unreachable), and on an empty
update list the result is the Low-impact "no recent updates"
analysis. -/
theorem C9_analyzer_total :
    (∀ (g : Option Analysis) (name cat : Str) (updates : List Update),
        (analyze_updates false g name cat updates).isSome = true) ∧
    (∀ (b : Bool) (name cat : Str) (updates : List Update),
        (analyze_updates b none name cat updates).isSome = true) ∧
    (∀ (g : Option Analysis) (name cat : Str),
        (analyze_updates false g name cat []).map (fun a => (a.impact, a.summary)) =
          some ("Low".data, name ++ (" has no recent updates".data))) := by
  refine ⟨fun g n c us => ?_, fun b n c us => ?_, fun g n c => ?_⟩
  · simp [analyze_updates]
  · unfold analyze_updates
    split
    · rfl
    · rfl
  · simp [analyze_updates, basic_analysis]

/-- Helper: a 250-character truncation of a non-empty string is
non-empty. -/
theorem take250_ne_nil {t : Str} (h : t ≠ []) : t.take 250 ≠ [] := by
  cases t with
  | nil => exact absurd rfl h
  | cons a b => simp [List.take]

/-- Helper: a 250-character truncation is at most 250 characters. -/
theorem take250_le (t : Str) : (t.take 250).length ≤ 250 := by
  rw [List.length_take]
  omega

/-- Helper: the container tier only emits titles of 5..250 characters
(truncated, hence non-empty and bounded). -/
theorem container_title_bounds (c : Container) (url : Str) (u : Update)
    (h : extract_from_container c url = some u) :
    u.title ≠ [] ∧ u.title.length ≤ 250 := by
  unfold extract_from_container at h
  rcases hct : containerTitle c with _ | title <;> simp only [hct] at h
  · exact Option.noConfusion h
  · split at h
    · exact Option.noConfusion h
    · rename_i hcond
      push_neg at hcond
      injection h with h'
      subst h'
      exact ⟨take250_ne_nil hcond.1, take250_le _⟩

/-- Helper: the heading tier only emits titles of 5..250 characters. -/
theorem heading_title_bounds (hd : Heading) (url : Str) (u : Update)
    (h : extract_from_heading hd url = some u) :
    u.title ≠ [] ∧ u.title.length ≤ 250 := by
  unfold extract_from_heading at h
  split at h
  · exact Option.noConfusion h
  · rename_i hcond
    push_neg at hcond
    split at h
    · exact Option.noConfusion h
    · injection h with h'
      subst h'
      exact ⟨take250_ne_nil hcond.1, take250_le _⟩

/-- Helper: the list-item tier truncates titles to 250 characters (but
does not guarantee non-emptiness). -/
theorem li_title_bound (li : LItem) (url : Str) (u : Update)
    (h : extract_from_list_item li url = some u) :
    u.title.length ≤ 250 := by
  unfold extract_from_list_item at h
  split at h
  · exact Option.noConfusion h
  · injection h with h'
    subst h'
    exact take250_le _

/-- Helper: the title dedup step preserves a property held by the
accumulated updates and by any appended candidate. -/
theorem dedupAppend_forall {P : Update → Prop} {acc : List Update} {u? : Option Update}
    (hacc : ∀ v ∈ acc, P v) (hu : ∀ v, u? = some v → P v) :
    ∀ v ∈ dedupAppend acc u?, P v := by
  cases u? with
  | none => exact hacc
  | some u =>
    simp only [dedupAppend]
    split
    · exact hacc
    · intro v hv
      rcases List.mem_append.mp hv with h | h
      · exact hacc v h
      · rw [List.mem_singleton.mp h]
        exact hu u rfl

/-- Helper: a fold whose step preserves a property on all collected
updates yields only updates with that property. -/
theorem foldl_preserves_forall {β : Type} {P : Update → Prop}
    (g : List Update → β → List Update) :
    ∀ (l : List β),
      (∀ acc b, b ∈ l → (∀ v ∈ acc, P v) → ∀ v ∈ g acc b, P v) →
      ∀ (acc : List Update),
        (∀ v ∈ acc, P v) → ∀ v ∈ l.foldl g acc, P v := by
  intro l
  induction l with
  | nil => intro _ acc hacc; simpa using hacc
  | cons b rest ih =>
    intro hg acc hacc
    rw [List.foldl_cons]
    exact ih (fun acc' b' hb' => hg acc' b' (List.mem_cons_of_mem _ hb'))
      _ (hg acc b (List.mem_cons_self _ _) hacc)

/-- Helper: dropping a prefix never lengthens a list. -/
theorem length_dropWhile_le (p : Char → Bool) (l : Str) :
    (l.dropWhile p).length ≤ l.length := by
  induction l with
  | nil => simp
  | cons a t ih =>
    rw [List.dropWhile_cons]
    split
    · exact le_trans ih (by simp)
    · simp

/-- Helper: a string equal to its own strip and non-empty starts with a
non-whitespace character. -/
theorem head_not_ws_of_strip_eq {t : Str} (hstrip : pyStrip t = t) (hlen : 0 < t.length) :
    ∃ c t', t = c :: t' ∧ c.isWhitespace = false := by
  cases t with
  | nil => simp at hlen
  | cons c t' =>
    refine ⟨c, t', rfl, ?_⟩
    by_contra hw
    have hw' : c.isWhitespace = true := by
      revert hw
      cases c.isWhitespace <;> simp
    have h1 : (pyStrip (c :: t')).length ≤ t'.length := by
      unfold pyStrip
      rw [List.dropWhile_cons, if_pos hw', List.length_reverse]
      exact le_trans (length_dropWhile_le _ _)
        (by rw [List.length_reverse]; exact length_dropWhile_le _ _)
    rw [hstrip] at h1
    simp at h1

/-- Helper: splitting a string that starts with a non-whitespace
character yields at least one (non-empty) word. -/
theorem pySplitWS_cons_ne_nil (c : Char) (t : Str) (hc : c.isWhitespace = false) :
    pySplitWS (c :: t) ≠ [] := by
  unfold pySplitWS
  rw [List.splitOnP_cons, hc]
  simp only [Bool.false_eq_true, if_false]
  obtain ⟨g, gs, hL⟩ := List.exists_cons_of_ne_nil (List.splitOnP_ne_nil _ t)
  rw [hL]
  simp [List.modifyHead]

/-- Helper: intercalating a word list whose head is non-empty is
non-empty. -/
theorem intercalate_cons_ne_nil (s w : Str) (ws : List Str) (hw : w ≠ []) :
    List.intercalate s (w :: ws) ≠ [] := by
  cases ws with
  | nil => simpa [List.intercalate] using hw
  | cons v vs =>
    simp only [List.intercalate, List.intersperse, List.flatten]
    intro hcontra
    exact hw (List.append_eq_nil.mp hcontra).1

/-- Helper: the aggressive heading pass preserves the title bounds. -/
theorem aggHeadingStep_bounds (url : Str) (acc : List Update) (h : AggHeading)
    (hacc : ∀ v ∈ acc, v.title ≠ [] ∧ v.title.length ≤ 250) :
    ∀ v ∈ aggHeadingStep url acc h, v.title ≠ [] ∧ v.title.length ≤ 250 := by
  unfold aggHeadingStep
  split
  · rename_i hb
    apply dedupAppend_forall hacc
    intro v hv
    injection hv with hv'
    subst hv'
    refine ⟨take250_ne_nil ?_, take250_le _⟩
    intro hnil
    rw [hnil] at hb
    simp at hb
  · exact hacc

/-- Helper: the aggressive paragraph pass preserves the title bounds. -/
theorem aggParaStep_bounds (url : Str) (acc : List Update) (pa : AggPara)
    (hacc : ∀ v ∈ acc, v.title ≠ [] ∧ v.title.length ≤ 250) :
    ∀ v ∈ aggParaStep url acc pa, v.title ≠ [] ∧ v.title.length ≤ 250 := by
  obtain ⟨st, ft⟩ := pa
  cases st with
  | none => exact hacc
  | some t =>
    simp only [aggParaStep]
    split
    · rename_i hb
      apply dedupAppend_forall hacc
      intro v hv
      injection hv with hv'
      subst hv'
      refine ⟨take250_ne_nil ?_, take250_le _⟩
      intro hnil
      rw [hnil] at hb
      simp at hb
    · exact hacc

/-- Helper: on a whitespace-stripped div text, the aggressive div pass
preserves the title bounds. -/
theorem aggDivStep_bounds (url : Str) (acc : List Update) (d : AggDiv)
    (hstrip : pyStrip d.text = d.text)
    (hacc : ∀ v ∈ acc, v.title ≠ [] ∧ v.title.length ≤ 250) :
    ∀ v ∈ aggDivStep url acc d, v.title ≠ [] ∧ v.title.length ≤ 250 := by
  unfold aggDivStep
  split
  · rename_i hb
    apply dedupAppend_forall hacc
    intro v hv
    injection hv with hv'
    subst hv'
    refine ⟨take250_ne_nil ?_, take250_le _⟩
    obtain ⟨c, t', ht, hc⟩ := head_not_ws_of_strip_eq hstrip (by omega)
    have hsplit : pySplitWS d.text ≠ [] := by
      rw [ht]
      exact pySplitWS_cons_ne_nil c t' hc
    obtain ⟨w, ws, hw⟩ := List.exists_cons_of_ne_nil hsplit
    have hwne : w ≠ [] := by
      have hmem : w ∈ pySplitWS d.text := by
        rw [hw]
        exact List.mem_cons_self _ _
      unfold pySplitWS at hmem
      have hfil := List.of_mem_filter hmem
      simpa using hfil
    rw [hw]
    exact intercalate_cons_ne_nil _ _ _ hwne
  · exact hacc

/-- Helper: a conditional between two update lists that both satisfy a
property satisfies it as well. -/
theorem if_preserves {P : Update → Prop} {c : Prop} [Decidable c] {a b : List Update}
    (ha : ∀ v ∈ a, P v) (hb : ∀ v ∈ b, P v) : ∀ v ∈ (if c then a else b), P v := by
  split
  · exact ha
  · exact hb

/-- Helper: every update of the aggressive pass has a non-empty title of
at most 250 characters, provided the page's leaf-div texts are
whitespace-stripped (which `get_text(strip=True, separator=' ')`
guarantees). -/
theorem aggressive_title_bounds (p : Page) (url : Str)
    (hdiv : ∀ d ∈ p.aggDivs, pyStrip d.text = d.text) :
    ∀ u ∈ extract_aggressive p url, u.title ≠ [] ∧ u.title.length ≤ 250 := by
  have h1 : ∀ v ∈ (p.aggHeadings.take 30).foldl (aggHeadingStep url) [],
      v.title ≠ [] ∧ v.title.length ≤ 250 :=
    foldl_preserves_forall _ _ (fun acc b _ => aggHeadingStep_bounds url acc b)
      [] (by simp)
  have h2 : ∀ v ∈ (if ((p.aggHeadings.take 30).foldl (aggHeadingStep url) []).length < 3
        then (p.aggParagraphs.take 30).foldl (aggParaStep url)
          ((p.aggHeadings.take 30).foldl (aggHeadingStep url) [])
        else (p.aggHeadings.take 30).foldl (aggHeadingStep url) []),
      v.title ≠ [] ∧ v.title.length ≤ 250 :=
    if_preserves
      (foldl_preserves_forall _ _ (fun acc b _ => aggParaStep_bounds url acc b) _ h1)
      h1
  intro u hu
  have hmem := List.mem_of_mem_take hu
  exact if_preserves
    (foldl_preserves_forall _ _
      (fun acc d hd => aggDivStep_bounds url acc d (hdiv d (List.mem_of_mem_take hd)))
      _ h2)
    h2 u hmem

/-- Helper: feed-extracted updates carry the entry titles (default
"Untitled") untruncated, in feed order. -/
theorem rss_titles (entries : List FeedEntry) (url : Str) :
    (extract_from_rss (.ok entries) url).map (fun u => u.title) =
      if entries = [] then []
      else (entries.take 10).map (fun e => e.title.getD ("Untitled".data)) := by
  by_cases he : entries = []
  · simp [extract_from_rss, he]
  · simp only [extract_from_rss]
    rw [if_neg he, if_neg he, List.map_map]
    rfl

/-- C10 counterexample: a list item whose embedded bold element has
empty text (`<li><b></b>abcdefghijk</li>`) passes the 10-character text
check, takes the empty bold text as its title, and emits an `Update`
with an empty title — refuting the non-emptiness part of the claim for
the list-item tier. -/
theorem C10_empty_title_counterexample :
    (extract_from_list_item exLi ("u".data)).map (fun u => u.title) = some [] := by
  decide

/-- C10 (amended): updates from the container and heading tiers and from
the aggressive fallback (on pages whose leaf-div texts are
whitespace-stripped, as `get_text(strip=True)` output is) carry
non-empty titles of at most 250 characters; the list-item tier bounds
titles by 250 characters but can emit an empty title when the embedded
title element's text is empty; feed-extracted updates carry the feed
entry title untruncated. -/
theorem C10_title_bounds :
    (∀ (c : Container) (url : Str) (u : Update),
        extract_from_container c url = some u → u.title ≠ [] ∧ u.title.length ≤ 250) ∧
    (∀ (hd : Heading) (url : Str) (u : Update),
        extract_from_heading hd url = some u → u.title ≠ [] ∧ u.title.length ≤ 250) ∧
    (∀ (li : LItem) (url : Str) (u : Update),
        extract_from_list_item li url = some u → u.title.length ≤ 250) ∧
    (∀ (p : Page) (url : Str),
        (∀ d ∈ p.aggDivs, pyStrip d.text = d.text) →
        ∀ u ∈ extract_aggressive p url, u.title ≠ [] ∧ u.title.length ≤ 250) ∧
    (∀ (entries : List FeedEntry) (url : Str),
        (extract_from_rss (.ok entries) url).map (fun u => u.title) =
          if entries = [] then []
          else (entries.take 10).map (fun e => e.title.getD ("Untitled".data))) :=
  ⟨container_title_bounds, heading_title_bounds, li_title_bound,
   aggressive_title_bounds, rss_titles⟩

/-- Witness for C10 (amended) at concrete elements of each tier. -/
theorem C10_title_bounds_witness :
    (exContainerU.title ≠ [] ∧ exContainerU.title.length ≤ 250) ∧
    (exHeadingU.title ≠ [] ∧ exHeadingU.title.length ≤ 250) ∧
    exLiU.title.length ≤ 250 ∧
    (exAggU.title ≠ [] ∧ exAggU.title.length ≤ 250) :=
  ⟨C10_title_bounds.1 exContainer ("u".data) exContainerU (by decide),
   C10_title_bounds.2.1 exHeading ("u".data) exHeadingU (by decide),
   C10_title_bounds.2.2.1 exLi ("u".data) exLiU (by decide),
   C10_title_bounds.2.2.2.1 exAggPage ("u".data) (by decide) exAggU (by decide)⟩

/-- Helper: one-step equation for the closed-form batch trace. -/
theorem batchTraceSpec_cons (c : CompetitorRun) (rest : List CompetitorRun) :
    batchTraceSpec (c :: rest) =
      .check c.name ::
        ((if 0 < rest.length then (if isOkOutcome c.outcome then [.delay] else []) else [])
          ++ batchTraceSpec rest) := by
  cases rest with
  | nil => simp [batchTraceSpec]
  | cons d rs => simp [batchTraceSpec]

/-- Helper: the checks of the closed-form trace are exactly the
competitor names in order. -/
theorem batchTraceSpec_checks (l : List CompetitorRun) :
    (batchTraceSpec l).filterMap checkName = l.map (fun c => c.name) := by
  induction l with
  | nil => rfl
  | cons c rest ih =>
    have hpre : ((if 0 < rest.length then
        (if isOkOutcome c.outcome then [BatchEvent.delay] else [])
        else []) : List BatchEvent).filterMap checkName = [] := by
      split
      · split
        · rfl
        · rfl
      · rfl
    rw [batchTraceSpec_cons, List.filterMap_cons]
    simp only [checkName]
    rw [List.filterMap_append, hpre, List.nil_append, ih, List.map_cons]

/-- Helper: the indexed loop of `monitor_all` produces exactly the
closed-form trace when the counters are consistent with the remaining
list. -/
theorem monitorAllGo_trace (l : List CompetitorRun) :
    ∀ (i n : Nat), n + 1 = i + l.length →
      (monitorAllGo i n l).2 = batchTraceSpec l := by
  induction l with
  | nil => intro i n _; rfl
  | cons c rest ih =>
    intro i n h
    have hlen : n = i + rest.length := by
      simp only [List.length_cons] at h
      omega
    have ht := ih (i + 1) n (by omega)
    cases hc : c.outcome with
    | error e =>
      simp only [monitorAllGo, hc]
      rw [batchTraceSpec_cons, hc]
      simp only [isOkOutcome, if_neg, ite_self, List.nil_append]
      simp [ht]
    | ok f? =>
      simp only [monitorAllGo, hc]
      rw [batchTraceSpec_cons, hc]
      simp only [isOkOutcome]
      have hif : (i < n) ↔ (0 < rest.length) := by omega
      simp only [hif, ht]
      simp

/-- C8 counterexample: two enabled competitors where the first check
raises — the batch continues to the second competitor, but no delay
event occurs between the two checks, refuting the claim that the delay
is applied even after a failed check. -/
theorem C8_delay_after_failure_counterexample :
    (monitor_all exBatch).2 = [.check ("a".data), .check ("b".data)] ∧
    BatchEvent.delay ∉ (monitor_all exBatch).2 := by
  refine ⟨by decide, by decide⟩

/-- C8 (amended): `monitor_all` checks exactly the enabled competitors
in order (one competitor's exception never aborts the batch), and the
inter-entity delay occurs exactly after each non-final check that
completed without raising — a raised exception skips that round's
delay, and no delay precedes the first or follows the last check. -/
theorem C8_batch_contract (comps : List CompetitorRun) :
    (monitor_all comps).2 = batchTraceSpec (comps.filter (fun c => c.enabled)) ∧
    (monitor_all comps).2.filterMap checkName =
      (comps.filter (fun c => c.enabled)).map (fun c => c.name) := by
  have h2 : (monitor_all comps).2 = batchTraceSpec (comps.filter (fun c => c.enabled)) := by
    unfold monitor_all
    exact monitorAllGo_trace _ 1 _ (by omega)
  exact ⟨h2, by rw [h2, batchTraceSpec_checks]⟩

end IntelTracker
